import Mathlib

/-!
Shallow embedding of the chef-gpt ML backend core
(src/ml-backend/app/models/nutrition_analyzer.py,
 src/ml-backend/app/models/recipe_recommender.py and the
 /analyze-nutrition boundary in src/ml-backend/app/main.py).

Modelling conventions:
* Python floats are modelled as exact rationals.
* Python strings are modelled as Lean strings; character classes
  (str.lower, \d, \s, \w) are modelled at ASCII granularity, which covers
  every string constant appearing in the sources.
* The TF-IDF cosine-similarity oracle used by the fuzzy ingredient
  matcher and the sentence-embedding similarity used by the recipe
  recommender are external numeric inputs; they are modelled as explicit
  function parameters, constrained only by mathematical properties that
  cosine similarity of term-vectors satisfies.
-/

set_option maxRecDepth 100000
set_option maxHeartbeats 1000000

/-- Bool test for the ASCII word-character class of the Python regexes
(letters, digits and the underscore). -/
def isWordChar (c : Char) : Bool := c.isAlphanum || c == '_'

/-- Python str.lower at ASCII granularity, char by char. -/
def lowerStr (s : String) : String := ⟨s.data.map Char.toLower⟩

/-- Python str.strip on a character list (leading and trailing whitespace
removed). -/
def pyStripChars (l : List Char) : List Char :=
  ((l.dropWhile Char.isWhitespace).reverse.dropWhile Char.isWhitespace).reverse

/-- Python str.strip on strings. -/
def pyStripStr (s : String) : String := ⟨pyStripChars s.data⟩

/-- Does the second list start with the first one. -/
def startsWithChars : List Char → List Char → Bool
  | [], _ => true
  | _ :: _, [] => false
  | a :: as, b :: bs => a == b && startsWithChars as bs

/-- Python substring containment (needle in haystack). -/
def containsChars (needle : List Char) : List Char → Bool
  | [] => needle.isEmpty
  | c :: rest => startsWithChars needle (c :: rest) || containsChars needle rest

/-- Substring containment on strings, needle second. -/
def strContains (hay needle : String) : Bool := containsChars needle.data hay.data

/-- Python str.replace(needle, "") for a nonempty needle: scan left to
right, drop every non-overlapping occurrence, continue after each match.
Fuel-based structural recursion so that the kernel can evaluate it; the
fuel is the length of the scanned list and every step consumes at least
one character. -/
def replaceAux (needle : List Char) : Nat → List Char → List Char
  | 0, l => l
  | _ + 1, [] => []
  | fuel + 1, c :: rest =>
    if !needle.isEmpty && startsWithChars needle (c :: rest) then
      replaceAux needle fuel ((c :: rest).drop needle.length)
    else
      c :: replaceAux needle fuel rest

/-- Python str.replace(needle, "") on character lists. -/
def replaceChars (needle l : List Char) : List Char := replaceAux needle l.length l

/-- Unit alternatives of the quantity-stripping regex in
clean_ingredient_name, in the source order of the alternation
cup|cups|tbsp|tsp|oz|lb|g|kg|ml|l. -/
def unitAlts : List (List Char) :=
  ["cup".data, "cups".data, "tbsp".data, "tsp".data, "oz".data, "lb".data,
   "g".data, "kg".data, "ml".data, "l".data]

/-- Attempt to match the regex \d+\s*(cup|cups|tbsp|tsp|oz|lb|g|kg|ml|l)\s*
at the head of the list; on success return the remainder after the match.
The alternation takes its first matching alternative, as the Python regex
engine does. -/
def matchQuantUnit (l : List Char) : Option (List Char) :=
  let ds := l.takeWhile Char.isDigit
  if ds.isEmpty then none
  else
    let r1 := (l.dropWhile Char.isDigit).dropWhile Char.isWhitespace
    match unitAlts.find? (fun u => startsWithChars u r1) with
    | some u => some ((r1.drop u.length).dropWhile Char.isWhitespace)
    | none => none

/-- Scanner for re.sub of the quantity+unit pattern with the empty
replacement: at each position try the pattern, drop the match and resume
after it, otherwise keep one character and move on. -/
def stripQuantAux : Nat → List Char → List Char
  | 0, l => l
  | _ + 1, [] => []
  | fuel + 1, c :: rest =>
    if c.isDigit then
      match matchQuantUnit (c :: rest) with
      | some rem => stripQuantAux fuel rem
      | none => c :: stripQuantAux fuel rest
    else
      c :: stripQuantAux fuel rest

/-- Scanner for re.sub of a whitespace run with one underscore: every
maximal whitespace run becomes a single underscore character. -/
def collapseWsAux : Nat → List Char → List Char
  | 0, l => l
  | _ + 1, [] => []
  | fuel + 1, c :: rest =>
    if c.isWhitespace then
      '_' :: collapseWsAux fuel (rest.dropWhile Char.isWhitespace)
    else
      c :: collapseWsAux fuel rest

/-- Word list removed by clean_ingredient_name, in source order. -/
def remove_words : List String :=
  ["fresh", "dried", "chopped", "diced", "sliced", "minced", "grated",
   "cooked", "raw", "organic", "free-range", "extra", "virgin",
   "unsalted", "salted", "ground", "whole", "large", "medium", "small"]

/-- Embedding of NutritionAnalyzer.clean_ingredient_name: lowercase and
strip, remove embedded quantity+unit substrings, remove all digits,
remove each word of remove_words via str.replace (a substring removal),
drop characters that are neither word characters nor whitespace, strip,
and collapse whitespace runs to single underscores. Every stage of the
pipeline only shortens the character list, so the length of the input is
a valid fuel for each fuel-based scanner; sharing it keeps the term
linear in the input. -/
def clean_ingredient_name (name : String) : String :=
  let n := name.data.length
  let c0 := name.data.map Char.toLower
  let c1 := pyStripChars c0
  let c2 := stripQuantAux c1.length c1
  let c3 := c2.filter (fun c => !c.isDigit)
  let c4 := remove_words.foldl (fun acc w => replaceAux w.data n acc) c3
  let c5 := c4.filter (fun c => isWordChar c || c.isWhitespace)
  let c6 := pyStripChars c5
  ⟨collapseWsAux c6.length c6⟩

/-- Tokenizer of the scikit-learn TfidfVectorizer with its default token
pattern: maximal runs of word characters, kept only when at least two
characters long. Fuel-based scanner; every step consumes at least one
character, the fuel is the length of the input. The vectorizer also
lowercases its input, which is the identity on every string this
pipeline feeds it (cleaned keys and the corpus entries below are already
lowercase), so the embedding tokenizes the characters directly. -/
def tokensAux : Nat → List Char → List (List Char)
  | 0, _ => []
  | _ + 1, [] => []
  | fuel + 1, c :: rest =>
    if isWordChar c then
      (c :: rest.takeWhile isWordChar) :: tokensAux fuel (rest.dropWhile isWordChar)
    else
      tokensAux fuel rest

/-- Token list of a string under the TfidfVectorizer token pattern. -/
def tokensOf (s : String) : List (List Char) :=
  (tokensAux s.data.length s.data).filter (fun t => 2 ≤ t.length)

/-!
Rational arithmetic wrappers. The arithmetic of the Batteries Rat type
is deliberately irreducible, so a program written with it cannot be run
by kernel reduction. The program below therefore uses the following
wrappers, each of which reduces in the kernel and is proved equal to the
corresponding field operation; algebraic reasoning rewrites through the
bridge lemmas, concrete runs evaluate with decide. Decimal constants of
the sources are written with mkRat for the same reason.
-/

/-- Reducible multiplication on the rationals. -/
def qmul (a b : ℚ) : ℚ := Rat.divInt (a.num * b.num) ((a.den : ℤ) * b.den)

/-- Reducible addition on the rationals. -/
def qadd (a b : ℚ) : ℚ := Rat.divInt (a.num * b.den + b.num * a.den) ((a.den : ℤ) * b.den)

/-- Reducible negation on the rationals. -/
def qneg (a : ℚ) : ℚ := Rat.divInt (-a.num) a.den

/-- Reducible subtraction on the rationals. -/
def qsub (a b : ℚ) : ℚ := qadd a (qneg b)

/-- Reducible division on the rationals (zero on a zero divisor, as in
Mathlib). -/
def qdiv (a b : ℚ) : ℚ := Rat.divInt (a.num * b.den) ((a.den : ℤ) * b.num)

/-- Reducible floor of a rational, by flooring integer division. -/
def qfloor (a : ℚ) : ℤ := Int.fdiv a.num a.den

/-- Per-100g nutrient row of the nutrition database (USDA-style sample
loaded by load_nutrition_database). -/
structure NutrRow where
  calories_per_100g : ℚ
  protein : ℚ
  carbs : ℚ
  fat : ℚ
  fiber : ℚ
  sugar : ℚ
  sodium : ℚ
  vitamin_c : ℚ
  calcium : ℚ
  iron : ℚ
  potassium : ℚ
deriving DecidableEq

/-- Association-list lookup, modelling Python dict access on the string
keyed tables (insertion order preserved, keys unique). -/
def lookupStr {α : Type} (k : String) : List (String × α) → Option α
  | [] => none
  | (k2, v) :: rest => if k = k2 then some v else lookupStr k rest

/-- The nutrition database of load_nutrition_database, in source order. -/
def nutrition_db : List (String × NutrRow) :=
  [("apple", ⟨52, mkRat 26 100, mkRat 1381 100, mkRat 17 100, mkRat 24 10, mkRat 1039 100, 1, mkRat 46 10, 6, mkRat 12 100, 107⟩),
   ("banana", ⟨89, mkRat 109 100, mkRat 2284 100, mkRat 33 100, mkRat 26 10, mkRat 1223 100, 1, mkRat 87 10, 5, mkRat 26 100, 358⟩),
   ("orange", ⟨47, mkRat 94 100, mkRat 1175 100, mkRat 12 100, mkRat 24 10, mkRat 935 100, 0, mkRat 532 10, 40, mkRat 1 10, 181⟩),
   ("tomato", ⟨18, mkRat 88 100, mkRat 389 100, mkRat 2 10, mkRat 12 10, mkRat 263 100, 5, mkRat 137 10, 10, mkRat 27 100, 237⟩),
   ("onion", ⟨40, mkRat 11 10, mkRat 934 100, mkRat 1 10, mkRat 17 10, mkRat 424 100, 4, mkRat 74 10, 23, mkRat 21 100, 146⟩),
   ("carrot", ⟨41, mkRat 93 100, mkRat 958 100, mkRat 24 100, mkRat 28 10, mkRat 474 100, 69, mkRat 59 10, 33, mkRat 3 10, 320⟩),
   ("broccoli", ⟨34, mkRat 282 100, mkRat 664 100, mkRat 37 100, mkRat 26 10, mkRat 155 100, 33, mkRat 892 10, 47, mkRat 73 100, 316⟩),
   ("spinach", ⟨23, mkRat 286 100, mkRat 363 100, mkRat 39 100, mkRat 22 10, mkRat 42 100, 79, mkRat 281 10, 99, mkRat 271 100, 558⟩),
   ("chicken_breast", ⟨165, 31, 0, mkRat 36 10, 0, 0, 74, 0, 15, mkRat 9 10, 256⟩),
   ("beef_lean", ⟨250, 26, 0, 15, 0, 0, 72, 0, 18, mkRat 26 10, 318⟩),
   ("salmon", ⟨208, 22, 0, 12, 0, 0, 89, 0, 9, mkRat 8 10, 363⟩),
   ("eggs", ⟨155, 13, mkRat 11 10, 11, 0, mkRat 11 10, 124, 0, 56, mkRat 175 100, 138⟩),
   ("rice_white", ⟨130, mkRat 27 10, 28, mkRat 3 10, mkRat 4 10, mkRat 1 10, 1, 0, 28, mkRat 8 10, 35⟩),
   ("pasta", ⟨131, 5, 25, mkRat 11 10, mkRat 18 10, mkRat 8 10, 1, 0, 7, mkRat 9 10, 44⟩),
   ("bread_white", ⟨265, 9, 49, mkRat 32 10, mkRat 27 10, 5, 477, 0, 77, mkRat 36 10, 115⟩),
   ("flour", ⟨364, 10, 76, 1, mkRat 27 10, mkRat 3 10, 2, 0, 15, mkRat 12 10, 107⟩),
   ("milk_whole", ⟨61, mkRat 32 10, mkRat 48 10, mkRat 33 10, 0, mkRat 51 10, 40, 0, 113, mkRat 3 100, 132⟩),
   ("cheese_cheddar", ⟨403, 25, mkRat 13 10, 33, 0, mkRat 5 10, 621, 0, 721, mkRat 68 100, 76⟩),
   ("butter", ⟨717, mkRat 85 100, mkRat 6 100, 81, 0, mkRat 6 100, 11, 0, 24, mkRat 2 100, 24⟩),
   ("olive_oil", ⟨884, 0, 0, 100, 0, 0, 2, 0, 1, mkRat 56 100, 1⟩),
   ("salt", ⟨0, 0, 0, 0, 0, 0, 38758, 0, 24, mkRat 33 100, 8⟩),
   ("black_pepper", ⟨251, mkRat 1039 100, mkRat 6395 100, mkRat 326 100, mkRat 253 10, mkRat 64 100, 20, 0, 443, mkRat 971 100, 1329⟩)]

/-- Keys of the nutrition database (the dataframe index). -/
def dbKeys : List String := nutrition_db.map Prod.fst

/-- Alias table from common ingredient names to database keys. -/
def ingredient_aliases : List (String × String) :=
  [("chicken", "chicken_breast"), ("beef", "beef_lean"), ("fish", "salmon"),
   ("egg", "eggs"), ("rice", "rice_white"), ("white_rice", "rice_white"),
   ("cheese", "cheese_cheddar"), ("bread", "bread_white"), ("milk", "milk_whole")]

/-- Python name.replace("_", " "), a character-wise substitution. -/
def spaceVariant (s : String) : String :=
  ⟨s.data.map (fun c => if c == '_' then ' ' else c)⟩

/-- Corpus fitted by initialize_ingredient_matcher: for every database
key and alias key, the name itself, the plural with an appended s, and
the variant with underscores replaced by spaces, in that order. -/
def ingredientCorpus : List String :=
  (dbKeys ++ ingredient_aliases.map Prod.fst).foldl
    (fun acc name => acc ++ [name, name ++ "s", spaceVariant name]) []

/-- First-maximum argmax of numpy over a similarity list: the value and
the index of its first occurrence. -/
def argmaxPair : List ℚ → ℚ × Nat
  | [] => (0, 0)
  | [x] => (x, 0)
  | x :: y :: rest =>
    let p := argmaxPair (y :: rest)
    if p.1 ≤ x then (x, 0) else (p.1, p.2 + 1)

/-- Best fuzzy candidate of find_matching_ingredient: the numpy argmax
over the cosine similarities of the cleaned key against the whole
corpus, as a value, index pair. -/
def fuzzyBest (simFn : String → String → ℚ) (cleaned : String) : ℚ × ℕ :=
  argmaxPair (ingredientCorpus.map (simFn cleaned))

/-- Fuzzy tier of find_matching_ingredient: the argmax corpus entry is
accepted when its similarity exceeds the 0.3 threshold and it maps back
to a database key, directly or through the alias table; an alias mapping
scales the reported similarity by 0.9. -/
def fuzzyMatch (simFn : String → String → ℚ) (cleaned : String) : Option String × ℚ :=
  if mkRat 3 10 < (fuzzyBest simFn cleaned).1 then
    if ingredientCorpus.getD (fuzzyBest simFn cleaned).2 "" ∈ dbKeys then
      (some (ingredientCorpus.getD (fuzzyBest simFn cleaned).2 ""), (fuzzyBest simFn cleaned).1)
    else
      match lookupStr (ingredientCorpus.getD (fuzzyBest simFn cleaned).2 "") ingredient_aliases with
      | some k2 => (some k2, qmul (fuzzyBest simFn cleaned).1 (mkRat 9 10))
      | none => (none, 0)
  else (none, 0)

/-- Embedding of NutritionAnalyzer.find_matching_ingredient. The TF-IDF
cosine similarity between the cleaned key and a corpus entry is the
opaque numeric parameter simFn. The ladder of the source: exact database
key with confidence 1.0, alias with 0.95, then the fuzzy tier above. -/
def find_matching_ingredient (simFn : String → String → ℚ)
    (ingredient_name : String) : Option String × ℚ :=
  if clean_ingredient_name ingredient_name ∈ dbKeys then
    (some (clean_ingredient_name ingredient_name), 1)
  else
    match lookupStr (clean_ingredient_name ingredient_name) ingredient_aliases with
    | some k => (some k, mkRat 95 100)
    | none => fuzzyMatch simFn (clean_ingredient_name ingredient_name)

/-- Everywhere-zero similarity oracle: a valid instance of the cosine
similarity parameter (it is what the source computes when the query
shares no vocabulary term with any corpus entry). -/
def simZero : String → String → ℚ := fun _ _ => 0

/-- Density table of load_density_database, grams per milliliter. -/
def densities : List (String × ℚ) :=
  [("flour", mkRat 593 1000), ("sugar", mkRat 845 1000), ("milk", mkRat 103 100),
   ("water", 1), ("olive_oil", mkRat 92 100), ("butter", mkRat 911 1000),
   ("honey", mkRat 14 10), ("rice", mkRat 753 1000), ("oats", mkRat 41 100),
   ("salt", mkRat 1217 1000)]

/-- Density of an ingredient, defaulting to the density of water when the
ingredient is absent from the table. -/
def densityOf (n : String) : ℚ := (lookupStr n densities).getD 1

/-- Portion-size table of load_portion_estimator, grams per size class.
The sentinel "default": 100 entry of the source dict is modelled by the
constant default_portion below (it is the value the source reads through
portion_sizes["default"]). -/
def portion_sizes : List (String × List (String × ℚ)) :=
  [("apple", [("medium", 182), ("large", 223), ("small", 149)]),
   ("banana", [("medium", 118), ("large", 136), ("small", 101)]),
   ("orange", [("medium", 154), ("large", 184), ("small", 131)]),
   ("tomato", [("medium", 123), ("large", 182), ("small", 91)]),
   ("onion", [("medium", 110), ("large", 150), ("small", 70)]),
   ("carrot", [("medium", 61), ("large", 72), ("small", 50)]),
   ("egg", [("large", 50), ("medium", 44), ("small", 38)]),
   ("chicken_breast", [("serving", 85)])]

/-- Default portion weight in grams, portion_sizes["default"]. -/
def default_portion : ℚ := 100

/-- Medium portion weight of an ingredient: the two chained dict.get
calls of the source, each falling back to the default of 100 grams. -/
def portionMediumOf (n : String) : ℚ :=
  match lookupStr n portion_sizes with
  | some sizes => (lookupStr "medium" sizes).getD default_portion
  | none => default_portion

/-- Unit string normalisation at the head of convert_to_grams:
unit.lower().strip(). -/
def normalizeUnit (u : String) : String := pyStripStr (lowerStr u)

/-- Embedding of NutritionAnalyzer.convert_to_grams: weight units are
fixed multiplicative constants, volume units multiply by a
milliliter constant and the ingredient density, count units multiply by
the medium portion weight, and an unrecognised unit leaves the amount
unchanged. -/
def convert_to_grams (amount : ℚ) (unit : String) (ingredient_name : String) : ℚ :=
  let u := normalizeUnit unit
  if u ∈ ["g", "gram", "grams"] then amount
  else if u ∈ ["kg", "kilogram", "kilograms"] then qmul amount 1000
  else if u ∈ ["oz", "ounce", "ounces"] then qmul amount (mkRat 2835 100)
  else if u ∈ ["lb", "pound", "pounds"] then qmul amount (mkRat 453592 1000)
  else if u ∈ ["ml", "milliliter", "milliliters"] then qmul amount (densityOf ingredient_name)
  else if u ∈ ["l", "liter", "liters"] then qmul (qmul amount 1000) (densityOf ingredient_name)
  else if u ∈ ["cup", "cups"] then qmul (qmul amount (mkRat 236588 1000)) (densityOf ingredient_name)
  else if u ∈ ["tbsp", "tablespoon", "tablespoons"] then qmul (qmul amount (mkRat 14787 1000)) (densityOf ingredient_name)
  else if u ∈ ["tsp", "teaspoon", "teaspoons"] then qmul (qmul amount (mkRat 4929 1000)) (densityOf ingredient_name)
  else if u ∈ ["piece", "pieces", "whole", "item", "items"] then qmul amount (portionMediumOf ingredient_name)
  else amount

/-- All unit spellings recognised by convert_to_grams. -/
def recognisedUnits : List String :=
  ["g", "gram", "grams", "kg", "kilogram", "kilograms", "oz", "ounce", "ounces",
   "lb", "pound", "pounds", "ml", "milliliter", "milliliters", "l", "liter", "liters",
   "cup", "cups", "tbsp", "tablespoon", "tablespoons", "tsp", "teaspoon", "teaspoons",
   "piece", "pieces", "whole", "item", "items"]

/-- Ingredient record consumed by calculate_nutrition: a dict with a
name and optional amount and unit entries (the optional fields model
absent dict keys, for which the source supplies the defaults 100 and
g). -/
structure IngredientInput where
  name : String
  amount : Option ℚ
  unit : Option String
deriving DecidableEq

/-- Running totals of the aggregation loop of calculate_nutrition, one
field per key of the total_nutrition accumulator dict. -/
structure Totals where
  calories : ℚ
  protein : ℚ
  carbs : ℚ
  fat : ℚ
  fiber : ℚ
  sugar : ℚ
  sodium : ℚ
  vitamin_c : ℚ
  calcium : ℚ
  iron : ℚ
  potassium : ℚ
deriving DecidableEq

/-- Loop state of calculate_nutrition: the nutrient totals, the summed
confidence, the number of matched ingredients and the names with no
match. -/
structure AggState where
  totals : Totals
  totalConfidence : ℚ
  processedCount : ℕ
  missing : List String
deriving DecidableEq

/-- Initial loop state. -/
def initAggState : AggState := ⟨⟨0, 0, 0, 0, 0, 0, 0, 0, 0, 0, 0⟩, 0, 0, []⟩

/-- Zero row, never read: the matcher only returns database keys, so the
dataframe row lookup of the source cannot fail (proved below in
find_matching_ingredient_mem_db). -/
def zeroRow : NutrRow := ⟨0, 0, 0, 0, 0, 0, 0, 0, 0, 0, 0⟩

/-- Per-ingredient accumulation of the loop body: each accumulator key
present in the database row is increased by the row value scaled by
grams over 100. The accumulator key calories is absent from the row
(whose column is named calories_per_100g), so the source line
`if nutrient in nutrition_data` skips it and the calories total is never
increased; the embedding mirrors that by leaving the field unchanged. -/
def addScaled (t : Totals) (row : NutrRow) (scale : ℚ) : Totals :=
  { calories := t.calories,
    protein := qadd t.protein (qmul row.protein scale),
    carbs := qadd t.carbs (qmul row.carbs scale),
    fat := qadd t.fat (qmul row.fat scale),
    fiber := qadd t.fiber (qmul row.fiber scale),
    sugar := qadd t.sugar (qmul row.sugar scale),
    sodium := qadd t.sodium (qmul row.sodium scale),
    vitamin_c := qadd t.vitamin_c (qmul row.vitamin_c scale),
    calcium := qadd t.calcium (qmul row.calcium scale),
    iron := qadd t.iron (qmul row.iron scale),
    potassium := qadd t.potassium (qmul row.potassium scale) }

/-- One iteration of the calculate_nutrition loop. -/
def processIngredient (simFn : String → String → ℚ) (st : AggState)
    (ing : IngredientInput) : AggState :=
  let ingredient_name := pyStripStr (lowerStr ing.name)
  let amount := ing.amount.getD 100
  let unit := lowerStr (ing.unit.getD "g")
  match find_matching_ingredient simFn ingredient_name with
  | (some matched, confidence) =>
    let amount_in_grams := convert_to_grams amount unit matched
    let row := (lookupStr matched nutrition_db).getD zeroRow
    { totals := addScaled st.totals row (qdiv amount_in_grams 100),
      totalConfidence := qadd st.totalConfidence confidence,
      processedCount := st.processedCount + 1,
      missing := st.missing }
  | (none, _) => { st with missing := st.missing ++ [ingredient_name] }

/-- The aggregation loop of calculate_nutrition. -/
def aggregate (simFn : String → String → ℚ) (ingredients : List IngredientInput) : AggState :=
  ingredients.foldl (processIngredient simFn) initAggState

/-- Model of Python round(x, 2): scale by 100, round half to even, scale
back. The source rounds IEEE doubles; the embedding rounds the exact
rational value. -/
def roundHalfToEven (x : ℚ) : ℤ :=
  let f := qfloor x
  let r := qsub x ((f : ℤ) : ℚ)
  if r < mkRat 1 2 then f
  else if mkRat 1 2 < r then f + 1
  else if f % 2 = 0 then f else f + 1

/-- Two-decimal rounding of Python round(value, 2). -/
def round2 (x : ℚ) : ℚ := qdiv ((roundHalfToEven (qmul x 100) : ℤ) : ℚ) 100

/-- Nutrition mapping of the returned result: exactly the seven nutrient
fields of the response dict plus the per_serving flag. -/
structure NutritionOut where
  calories : ℚ
  protein : ℚ
  carbs : ℚ
  fat : ℚ
  fiber : ℚ
  sugar : ℚ
  sodium : ℚ
  per_serving : Bool
deriving DecidableEq

/-- Result of calculate_nutrition. -/
structure NutritionResult where
  nutrition : NutritionOut
  confidence : ℚ
  missing_ingredients : List String
deriving DecidableEq

/-- Zero result returned by the exception handler of
calculate_nutrition. -/
def fallback_result : NutritionResult := ⟨⟨0, 0, 0, 0, 0, 0, 0, true⟩, 0, []⟩

/-- Result construction after the loop: divide every total by servings
and round to two decimals, attach the mean confidence over matched
ingredients and the missing names. With servings = 0 the Python float
division raises ZeroDivisionError, which the handler of the source turns
into the zero fallback result; the embedding takes that branch
explicitly. -/
def build_nutrition_result (st : AggState) (servings : ℤ) : NutritionResult :=
  if servings = 0 then fallback_result
  else
    let ps : ℚ → ℚ := fun v => round2 (qdiv v ((servings : ℤ) : ℚ))
    { nutrition :=
        { calories := ps st.totals.calories,
          protein := ps st.totals.protein,
          carbs := ps st.totals.carbs,
          fat := ps st.totals.fat,
          fiber := ps st.totals.fiber,
          sugar := ps st.totals.sugar,
          sodium := ps st.totals.sodium,
          per_serving := true },
      confidence :=
        if 0 < st.processedCount then
          qdiv st.totalConfidence ((max st.processedCount 1 : ℕ) : ℚ)
        else 0,
      missing_ingredients := st.missing }

/-- Embedding of NutritionAnalyzer.calculate_nutrition. -/
def calculate_nutrition (simFn : String → String → ℚ)
    (ingredients : List IngredientInput) (servings : ℤ) : NutritionResult :=
  build_nutrition_result (aggregate simFn ingredients) servings

/-- Body of the /analyze-nutrition request of the service layer: the
ingredient list together with the optional servings field of
RecipeAnalysisRequest (default 1, no lower bound enforced by the
schema). -/
structure RecipeAnalysisRequest where
  ingredients : List IngredientInput
  servings : Option ℤ
deriving DecidableEq

/-- Servings value passed to the core by the boundary expression
`request.servings or 1`: the Python or replaces exactly the falsy values
None and 0 with 1 and passes everything else unchanged. -/
def servingsOrDefault : Option ℤ → ℤ
  | none => 1
  | some n => if n = 0 then 1 else n

/-- Result of calculate_nutrition when the ingredient list holds the
pydantic IngredientInput model objects of the request rather than the
dicts its loop expects, which is what the /analyze-nutrition endpoint of
main.py passes it: the first loop iteration calls ingredient.get, which
a pydantic model does not define, so an AttributeError reaches the
exception handler, which returns the zero fallback; with no ingredients
the loop body never runs and the ordinary result construction applies to
the zero totals (itself falling back at servings = 0, where the float
division raises). The matcher is never consulted on this path. -/
def calculate_nutrition_on_models (ingredients : List IngredientInput)
    (servings : ℤ) : NutritionResult :=
  match ingredients with
  | [] => build_nutrition_result initAggState servings
  | _ :: _ => fallback_result

/-- Embedding of the analyze_nutrition endpoint body of main.py: it
invokes calculate_nutrition with the boundary-adjusted servings and with
the request's pydantic ingredient objects, whose lack of dict access
makes the core take its exception path, modelled by
calculate_nutrition_on_models. -/
def analyze_nutrition (request : RecipeAnalysisRequest) : NutritionResult :=
  calculate_nutrition_on_models request.ingredients (servingsOrDefault request.servings)

/-!
Recipe recommender (recipe_recommender.py). The sentence-transformer
embedding similarity of calculate_similarity_scores is an opaque numeric
input and is modelled as a per-recipe base-score parameter; the corpus
is the recipe_database state and is modelled as a list parameter.
-/

/-- Recipe record of the recommender corpus, together with its derived
flattened text representation. -/
structure Recipe where
  title : String
  description : String
  ingredients : List String
  instructions : List String
  cuisine : String
  difficulty : String
  prep_time : ℤ
  cook_time : ℤ
  servings : ℤ
  tags : List String
  text_representation : String
deriving DecidableEq

/-- Join a list of words with single spaces, Python " ".join. -/
def joinSpace : List String → String
  | [] => ""
  | [w] => w
  | w :: rest => w ++ " " ++ joinSpace rest

/-- Build a recipe record, deriving the flattened text representation
exactly as load_recipe_database does: title, description, the joined
ingredients and the joined tags, separated by single spaces. -/
def mkRecipe (title description : String) (ingredients instructions : List String)
    (cuisine difficulty : String) (prep_time cook_time servings : ℤ)
    (tags : List String) : Recipe :=
  { title := title, description := description, ingredients := ingredients,
    instructions := instructions, cuisine := cuisine, difficulty := difficulty,
    prep_time := prep_time, cook_time := cook_time, servings := servings,
    tags := tags,
    text_representation :=
      title ++ " " ++ description ++ " " ++ joinSpace ingredients ++ " " ++ joinSpace tags }

/-- Placeholder recipe used only as the default of positional list
access in statements. -/
def emptyRecipe : Recipe := mkRecipe "" "" [] [] "" "" 0 0 0 []

/-- Meat keywords excluded by the vegetarian restriction. -/
def meat_keywords : List String :=
  ["chicken", "beef", "pork", "fish", "meat", "bacon", "ham"]

/-- Animal-product keywords excluded by the vegan restriction. -/
def animal_keywords : List String :=
  ["chicken", "beef", "pork", "fish", "meat", "dairy", "cheese", "milk",
   "butter", "egg", "honey", "bacon"]

/-- Gluten keywords excluded by the gluten-free restriction. -/
def gluten_keywords : List String :=
  ["wheat", "flour", "bread", "pasta", "barley", "rye"]

/-- Exclusion keyword list of a lowercased restriction name; an
unrecognised restriction excludes nothing, as the if/elif chain of the
source ignores it. -/
def excludeKeywordsFor (restriction_lower : String) : List String :=
  if restriction_lower = "vegetarian" then meat_keywords
  else if restriction_lower = "vegan" then animal_keywords
  else if restriction_lower = "gluten-free" then gluten_keywords
  else []

/-- Does the lowercased flattened text contain one of the keywords as a
substring (the str.contains call on the joined alternation regex). -/
def containsAnyKeyword (text : String) (kws : List String) : Bool :=
  kws.any (fun k => strContains (lowerStr text) k)

/-- One step of the restriction loop of filter_by_dietary_restrictions:
keep the recipes whose text matches no exclusion keyword of the
restriction. -/
def applyRestriction (recipes : List Recipe) (restriction : String) : List Recipe :=
  recipes.filter
    (fun r => !(containsAnyKeyword r.text_representation (excludeKeywordsFor (lowerStr restriction))))

/-- Embedding of RecipeRecommender.filter_by_dietary_restrictions. -/
def filter_by_dietary_restrictions (recipes : List Recipe)
    (restrictions : List String) : List Recipe :=
  restrictions.foldl applyRestriction recipes

/-- Python query.lower().split(): whitespace-separated words of the
lowercased query, empty words discarded. Fuel-based scanner. -/
def splitWsAux : Nat → List Char → List (List Char)
  | 0, _ => []
  | _ + 1, [] => []
  | fuel + 1, c :: rest =>
    if c.isWhitespace then splitWsAux fuel rest
    else
      (c :: rest.takeWhile (fun d => !d.isWhitespace)) ::
        splitWsAux fuel (rest.dropWhile (fun d => !d.isWhitespace))

/-- Distinct lowercased words of the query, the set(query.lower().split())
of boost_keyword_matches. -/
def queryWords (query : String) : List (List Char) :=
  (splitWsAux query.data.length ((lowerStr query).data)).dedup

/-- Number of distinct query words occurring literally (as substrings)
in the lowercased recipe text, the exact-match count of
boost_keyword_matches. -/
def keywordOverlapCount (query : String) (text : String) : ℕ :=
  ((queryWords query).filter (fun w => containsChars w (lowerStr text).data)).length

/-- Embedding of RecipeRecommender.boost_keyword_matches: every base
score is increased by 0.1 per matching query word and clamped at 1.0. -/
def boost_keyword_matches (query : String) (recipes : List Recipe)
    (base_scores : List ℚ) : List ℚ :=
  List.zipWith
    (fun r b =>
      min 1 (qadd b (qmul ((keywordOverlapCount query r.text_representation : ℕ) : ℚ) (mkRat 1 10))))
    recipes base_scores

/-- Retained recipes paired with their boosted similarity scores, in
corpus order: the state of find_recipes just before ranking. -/
def scoredEntries (baseScore : Recipe → ℚ) (recipes : List Recipe)
    (query : String) (restrictions : List String) : List (Recipe × ℚ) :=
  let filtered := filter_by_dietary_restrictions recipes restrictions
  filtered.zip (boost_keyword_matches query filtered (filtered.map baseScore))

/-- Descending stable sort by score, the pandas nlargest with its
default keep of the first occurrence: ties keep corpus order. -/
def rankEntries (l : List (Recipe × ℚ)) : List (Recipe × ℚ) :=
  List.insertionSort (fun a b => b.2 ≤ a.2) l

/-- Embedding of RecipeRecommender.find_recipes: filter by the dietary
restrictions, score the retained recipes (opaque embedding similarity
plus keyword boost), rank descending and truncate to max_results. -/
def find_recipes (baseScore : Recipe → ℚ) (recipes : List Recipe) (query : String)
    (dietary_restrictions : List String) (max_results : ℕ) : List (Recipe × ℚ) :=
  (rankEntries (scoredEntries baseScore recipes query dietary_restrictions)).take max_results

/-- Small concrete corpus used by the closed instantiations below (the
corpus is external state of the recommender; any list of recipe records
is admissible). -/
def recipeA : Recipe :=
  mkRecipe "Bean Salad" "simple salad" ["beans", "lettuce"] ["mix"]
    "Fusion" "Easy" 5 0 2 ["salad", "vegetarian"]

/-- Second recipe of the concrete corpus, one that every meat keyword
filter removes. -/
def recipeB : Recipe :=
  mkRecipe "Chicken Bowl" "grilled chicken" ["chicken", "rice"] ["grill"]
    "Asian" "Easy" 10 10 2 ["dinner"]

/-- Conjunction of non-negativity over the eleven accumulator fields. -/
def TotalsNonneg (t : Totals) : Prop :=
  0 ≤ t.calories ∧ 0 ≤ t.protein ∧ 0 ≤ t.carbs ∧ 0 ≤ t.fat ∧ 0 ≤ t.fiber ∧
    0 ≤ t.sugar ∧ 0 ≤ t.sodium ∧ 0 ≤ t.vitamin_c ∧ 0 ≤ t.calcium ∧ 0 ≤ t.iron ∧
    0 ≤ t.potassium

/-- Entries of a ranking list carrying one fixed score, in order: the
instrument used to state that ties keep corpus order. -/
def scoreSlice (s : ℚ) (l : List (Recipe × ℚ)) : List (Recipe × ℚ) :=
  l.filter (fun e => decide (e.2 = s))

/-!
Helper lemmas.
-/

theorem qmul_eq (a b : ℚ) : qmul a b = a * b := by
  have h1 : ((a.den : ℚ)) ≠ 0 := by exact_mod_cast a.den_nz
  have h2 : ((b.den : ℚ)) ≠ 0 := by exact_mod_cast b.den_nz
  rw [qmul, Rat.divInt_eq_div]
  push_cast
  conv_rhs => rw [← Rat.num_div_den a, ← Rat.num_div_den b]
  field_simp

theorem qadd_eq (a b : ℚ) : qadd a b = a + b := by
  have h1 : ((a.den : ℚ)) ≠ 0 := by exact_mod_cast a.den_nz
  have h2 : ((b.den : ℚ)) ≠ 0 := by exact_mod_cast b.den_nz
  rw [qadd, Rat.divInt_eq_div]
  push_cast
  conv_rhs => rw [← Rat.num_div_den a, ← Rat.num_div_den b]
  field_simp

theorem qneg_eq (a : ℚ) : qneg a = -a := by
  have h1 : ((a.den : ℚ)) ≠ 0 := by exact_mod_cast a.den_nz
  rw [qneg, Rat.divInt_eq_div]
  push_cast
  conv_rhs => rw [← Rat.num_div_den a]
  field_simp

theorem qsub_eq (a b : ℚ) : qsub a b = a - b := by
  rw [qsub, qadd_eq, qneg_eq, sub_eq_add_neg]

theorem qdiv_eq (a b : ℚ) : qdiv a b = a / b := by
  by_cases hb : b = 0
  · subst hb
    simp [qdiv]
  · have h1 : ((a.den : ℚ)) ≠ 0 := by exact_mod_cast a.den_nz
    have h2 : ((b.den : ℚ)) ≠ 0 := by exact_mod_cast b.den_nz
    have h3 : ((b.num : ℚ)) ≠ 0 := by exact_mod_cast Rat.num_ne_zero.mpr hb
    rw [qdiv, Rat.divInt_eq_div]
    push_cast
    conv_rhs => rw [← Rat.num_div_den a, ← Rat.num_div_den b]
    rw [div_div_div_comm]
    field_simp
    left
    ring


theorem lookupStr_mem {α : Type} {k : String} {v : α} :
    ∀ {l : List (String × α)}, lookupStr k l = some v → (k, v) ∈ l := by
  intro l
  induction l with
  | nil => intro h; simp [lookupStr] at h
  | cons p rest ih =>
    intro h
    cases p with
    | mk k2 v2 =>
      simp only [lookupStr] at h
      split at h
      next hk =>
        cases h
        subst hk
        exact List.mem_cons_self _ _
      next hk =>
        exact List.mem_cons_of_mem _ (ih h)

theorem mem_map_fst_lookup {α : Type} {m : String} :
    ∀ {l : List (String × α)}, m ∈ l.map Prod.fst → ∃ v, lookupStr m l = some v := by
  intro l
  induction l with
  | nil => intro h; simp at h
  | cons p rest ih =>
    intro h
    cases p with
    | mk k v2 =>
      by_cases hk : m = k
      · exact ⟨v2, by simp [lookupStr, hk]⟩
      · simp only [List.map_cons, List.mem_cons] at h
        rcases h with h | h
        · exact absurd h hk
        · obtain ⟨r, hr⟩ := ih h
          exact ⟨r, by simp [lookupStr, hk, hr]⟩

theorem mem_dbKeys_lookup {m : String} (h : m ∈ dbKeys) :
    ∃ row, lookupStr m nutrition_db = some row :=
  mem_map_fst_lookup h

theorem alias_targets_in_db : ∀ p ∈ ingredient_aliases, p.2 ∈ dbKeys := by decide

/-- Range of the ingredient matcher: a returned key is always a key of
the nutrition database, so the dataframe row access of the source never
raises. -/
theorem fuzzyMatch_mem_db (simFn : String → String → ℚ) (cleaned m : String) (c : ℚ)
    (h : fuzzyMatch simFn cleaned = (some m, c)) : m ∈ dbKeys := by
  unfold fuzzyMatch at h
  split at h
  next hb =>
    split at h
    next h2 =>
      cases h
      exact h2
    next h2 =>
      split at h
      next k2 heq2 =>
        cases h
        exact alias_targets_in_db _ (lookupStr_mem heq2)
      next heq2 =>
        cases h
  next hb =>
    cases h

theorem str_eq_of_data {s t : String} (h : s.data = t.data) : s = t := by
  cases s
  cases t
  exact congrArg String.mk h

theorem mem_pyStripChars {c : Char} : ∀ {l : List Char}, c ∈ pyStripChars l → c ∈ l := by
  intro l h
  unfold pyStripChars at h
  rw [List.mem_reverse] at h
  have h2 := (List.dropWhile_sublist _).subset h
  rw [List.mem_reverse] at h2
  exact (List.dropWhile_sublist _).subset h2

theorem mem_collapseWsAux {c : Char} :
    ∀ (fuel : ℕ) (l : List Char), l.length ≤ fuel → c ∈ collapseWsAux fuel l →
      c = '_' ∨ (c ∈ l ∧ c.isWhitespace = false) := by
  intro fuel
  induction fuel with
  | zero =>
    intro l hl h
    have : l = [] := List.eq_nil_of_length_eq_zero (Nat.le_zero.mp hl)
    subst this
    simp [collapseWsAux] at h
  | succ fuel ih =>
    intro l hl h
    cases l with
    | nil => simp [collapseWsAux] at h
    | cons a rest =>
      rw [collapseWsAux] at h
      split at h
      next ha =>
        rcases List.mem_cons.mp h with h | h
        · exact Or.inl h
        · have hlen : (rest.dropWhile Char.isWhitespace).length ≤ fuel := by
            have := (List.dropWhile_sublist (p := Char.isWhitespace) (l := rest)).length_le
            simp only [List.length_cons] at hl
            omega
          rcases ih _ hlen h with h | ⟨hc, hw⟩
          · exact Or.inl h
          · exact Or.inr ⟨List.mem_cons_of_mem _ ((List.dropWhile_sublist _).subset hc), hw⟩
      next ha =>
        rcases List.mem_cons.mp h with h | h
        · subst h
          exact Or.inr ⟨List.mem_cons_self _ _, by simpa using ha⟩
        · have hlen : rest.length ≤ fuel := by
            simp only [List.length_cons] at hl
            omega
          rcases ih _ hlen h with h | ⟨hc, hw⟩
          · exact Or.inl h
          · exact Or.inr ⟨List.mem_cons_of_mem _ hc, hw⟩

theorem clean_chars_word (name : String) :
    ∀ c ∈ (clean_ingredient_name name).data, isWordChar c = true := by
  intro c hc
  simp only [clean_ingredient_name] at hc
  rcases mem_collapseWsAux _ _ le_rfl hc with h | ⟨h5, hw⟩
  · subst h
    decide
  · have h5' := mem_pyStripChars h5
    have hp := List.of_mem_filter h5'
    rcases Bool.or_eq_true_iff.mp hp with h | h
    · exact h
    · rw [h] at hw
      cases hw

theorem takeWhile_all {p : Char → Bool} :
    ∀ {l : List Char}, (∀ c ∈ l, p c = true) → l.takeWhile p = l := by
  intro l
  induction l with
  | nil => intro _; rfl
  | cons a rest ih =>
    intro h
    rw [List.takeWhile_cons, h a (List.mem_cons_self _ _), ih fun c hc => h c (List.mem_cons_of_mem _ hc)]
    simp

theorem dropWhile_all {p : Char → Bool} :
    ∀ {l : List Char}, (∀ c ∈ l, p c = true) → l.dropWhile p = [] := by
  intro l
  induction l with
  | nil => intro _; rfl
  | cons a rest ih =>
    intro h
    rw [List.dropWhile_cons, h a (List.mem_cons_self _ _)]
    simp only [if_pos]
    exact ih fun c hc => h c (List.mem_cons_of_mem _ hc)

theorem tokensAux_all_word {l : List Char} (hne : l ≠ [])
    (hw : ∀ c ∈ l, isWordChar c = true) :
    ∀ fuel, 1 ≤ fuel → tokensAux fuel l = [l] := by
  intro fuel hf
  cases l with
  | nil => exact absurd rfl hne
  | cons a rest =>
    cases fuel with
    | zero => omega
    | succ f =>
      rw [tokensAux, if_pos (hw a (List.mem_cons_self _ _))]
      rw [takeWhile_all fun c hc => hw c (List.mem_cons_of_mem _ hc)]
      rw [dropWhile_all fun c hc => hw c (List.mem_cons_of_mem _ hc)]
      cases f <;> rfl

theorem tokensOf_clean (name : String) :
    tokensOf (clean_ingredient_name name) = [] ∨
      tokensOf (clean_ingredient_name name) = [(clean_ingredient_name name).data] := by
  rcases hd : (clean_ingredient_name name).data with _ | ⟨a, rest⟩
  · left
    unfold tokensOf
    rw [hd]
    rfl
  · have hw := clean_chars_word name
    have hne : (clean_ingredient_name name).data ≠ [] := by rw [hd]; simp
    have h1 : 1 ≤ (clean_ingredient_name name).data.length := by rw [hd]; simp
    unfold tokensOf
    rw [tokensAux_all_word hne hw _ h1]
    simp only [List.filter_cons, List.filter_nil, decide_eq_true_eq]
    by_cases h2 : 2 ≤ (clean_ingredient_name name).data.length
    · right
      rw [if_pos h2, hd]
    · left
      rw [if_neg h2]

theorem db_key_tokens : ∀ k ∈ dbKeys, tokensOf k = [k.data] := by decide

theorem alias_key_tokens : ∀ p ∈ ingredient_aliases, tokensOf p.1 = [p.1.data] := by decide

theorem corpus_ne : ingredientCorpus ≠ [] := by decide

theorem argmaxPair_spec : ∀ l : List ℚ, l ≠ [] →
    (argmaxPair l).2 < l.length ∧ (argmaxPair l).1 = l.getD (argmaxPair l).2 0 := by
  intro l
  induction l with
  | nil => intro h; exact absurd rfl h
  | cons x rest ih =>
    intro _
    cases rest with
    | nil => exact ⟨by simp [argmaxPair], by simp [argmaxPair]⟩
    | cons y t =>
      have h := ih (by simp)
      by_cases hc : (argmaxPair (y :: t)).1 ≤ x
      · constructor
        · simp [argmaxPair, hc]
        · simp [argmaxPair, hc]
      · constructor
        · simp only [argmaxPair, if_neg hc]
          have := h.1
          simp only [List.length_cons] at this ⊢
          omega
        · simp only [argmaxPair, if_neg hc, List.getD_cons_succ]
          exact h.2

/-- Under the orthogonality property of TF-IDF cosine similarity (two
documents sharing no vocabulary term have orthogonal vectors, hence
similarity zero), the fuzzy tier never accepts: a cleaned key is a
single token, every database or alias key is a single token, so a
nonzero similarity against such a corpus entry forces equality with the
cleaned key, contradicting the failure of the two exact tiers; the tier
therefore always returns no match. -/
theorem fuzzyMatch_dead (simFn : String → String → ℚ)
    (hsim : ∀ name e, e ∈ ingredientCorpus →
        (∀ t ∈ tokensOf (clean_ingredient_name name), t ∉ tokensOf e) →
        simFn (clean_ingredient_name name) e = 0)
    (name : String)
    (hdb : clean_ingredient_name name ∉ dbKeys)
    (hal : lookupStr (clean_ingredient_name name) ingredient_aliases = none) :
    fuzzyMatch simFn (clean_ingredient_name name) = (none, 0) := by
  unfold fuzzyMatch
  split
  next hb =>
    have hmapne : ingredientCorpus.map (simFn (clean_ingredient_name name)) ≠ [] := by
      intro hcon
      exact corpus_ne (List.map_eq_nil_iff.mp hcon)
    have hspec := argmaxPair_spec _ hmapne
    have hidx : (fuzzyBest simFn (clean_ingredient_name name)).2 < ingredientCorpus.length := by
      have := hspec.1
      rwa [List.length_map] at this
    have hgetD :
        ingredientCorpus.getD (fuzzyBest simFn (clean_ingredient_name name)).2 "" =
          ingredientCorpus[(fuzzyBest simFn (clean_ingredient_name name)).2] :=
      List.getD_eq_getElem _ _ hidx
    have hmem :
        ingredientCorpus.getD (fuzzyBest simFn (clean_ingredient_name name)).2 "" ∈
          ingredientCorpus := by
      rw [hgetD]
      exact List.getElem_mem hidx
    have hval :
        (fuzzyBest simFn (clean_ingredient_name name)).1 =
          simFn (clean_ingredient_name name)
            (ingredientCorpus.getD (fuzzyBest simFn (clean_ingredient_name name)).2 "") := by
      have h2 := hspec.2
      rw [List.getD_eq_getElem _ _ hspec.1, List.getElem_map] at h2
      rw [hgetD]
      exact h2
    have hpos :
        simFn (clean_ingredient_name name)
          (ingredientCorpus.getD (fuzzyBest simFn (clean_ingredient_name name)).2 "") ≠ 0 := by
      intro h0
      rw [← hval] at h0
      rw [h0] at hb
      exact absurd hb (by decide)
    have hshared :
        ∃ t ∈ tokensOf (clean_ingredient_name name),
          t ∈ tokensOf
            (ingredientCorpus.getD (fuzzyBest simFn (clean_ingredient_name name)).2 "") := by
      by_contra hcon
      push_neg at hcon
      exact hpos (hsim name _ hmem hcon)
    obtain ⟨t, ht, htm⟩ := hshared
    have hdata :
        t = (clean_ingredient_name name).data := by
      rcases tokensOf_clean name with hemp | hsing
      · rw [hemp] at ht
        exact absurd ht (List.not_mem_nil t)
      · rw [hsing] at ht
        simpa using ht
    subst hdata
    split
    next hmdb =>
      exfalso
      have htok := db_key_tokens _ hmdb
      rw [htok] at htm
      have heq := str_eq_of_data (List.mem_singleton.mp htm)
      apply hdb
      rw [heq]
      exact hmdb
    next hmdb =>
      split
      next k2 heq2 =>
        exfalso
        have hmem2 := lookupStr_mem heq2
        have htok :
            tokensOf
                (ingredientCorpus.getD (fuzzyBest simFn (clean_ingredient_name name)).2 "") =
              [(ingredientCorpus.getD
                  (fuzzyBest simFn (clean_ingredient_name name)).2 "").data] :=
          alias_key_tokens _ hmem2
        rw [htok] at htm
        have heq := str_eq_of_data (List.mem_singleton.mp htm)
        rw [← heq, hal] at heq2
        cases heq2
      next heq2 => rfl
  next hb => rfl

theorem find_matching_ingredient_mem_db (simFn : String → String → ℚ)
    (name m : String) (c : ℚ)
    (h : find_matching_ingredient simFn name = (some m, c)) : m ∈ dbKeys := by
  unfold find_matching_ingredient at h
  split at h
  next h1 =>
    cases h
    exact h1
  next h1 =>
    split at h
    next k heq =>
      cases h
      exact alias_targets_in_db _ (lookupStr_mem heq)
    next heq =>
      exact fuzzyMatch_mem_db simFn _ m c h

/-!
Claim theorems.
-/

/-- Claim C4: find_matching_ingredient resolves a cleaned key by a
first-hit-wins ladder: an exact database key match returns the key with
confidence 1.0; otherwise an exact alias match returns the aliased key
with confidence 0.95; otherwise the best fuzzy corpus match is accepted
only when its similarity exceeds 0.3 (scaled by 0.9 through the alias
table), otherwise the result is no match with confidence 0.0 — under
the orthogonality property of cosine similarity the fuzzy tier in fact
never accepts, so every returned confidence is 1, 0.95 or 0; hence the
exact confidence 1.0 is at least the alias confidence 0.95, which is at
least any accepted fuzzy confidence, and the total function never
raises, its confidence always lying in the unit interval. -/
theorem c4_matcher_ladder (simFn : String → String → ℚ)
    (hsim : ∀ name e, e ∈ ingredientCorpus →
        (∀ t ∈ tokensOf (clean_ingredient_name name), t ∉ tokensOf e) →
        simFn (clean_ingredient_name name) e = 0)
    (name : String) :
    (clean_ingredient_name name ∈ dbKeys →
      find_matching_ingredient simFn name = (some (clean_ingredient_name name), 1)) ∧
    (clean_ingredient_name name ∉ dbKeys →
      ∀ k, lookupStr (clean_ingredient_name name) ingredient_aliases = some k →
        find_matching_ingredient simFn name = (some k, mkRat 95 100)) ∧
    (clean_ingredient_name name ∉ dbKeys →
      lookupStr (clean_ingredient_name name) ingredient_aliases = none →
        find_matching_ingredient simFn name = (none, 0)) ∧
    ((find_matching_ingredient simFn name).2 = 1 ∨
      (find_matching_ingredient simFn name).2 = mkRat 95 100 ∨
      (find_matching_ingredient simFn name).2 = 0) ∧
    0 ≤ (find_matching_ingredient simFn name).2 ∧
    (find_matching_ingredient simFn name).2 ≤ 1 := by
  have e1 : clean_ingredient_name name ∈ dbKeys →
      find_matching_ingredient simFn name = (some (clean_ingredient_name name), 1) := by
    intro h
    unfold find_matching_ingredient
    rw [if_pos h]
  have e2 : clean_ingredient_name name ∉ dbKeys →
      ∀ k, lookupStr (clean_ingredient_name name) ingredient_aliases = some k →
        find_matching_ingredient simFn name = (some k, mkRat 95 100) := by
    intro h k hk
    unfold find_matching_ingredient
    rw [if_neg h, hk]
  have e3 : clean_ingredient_name name ∉ dbKeys →
      lookupStr (clean_ingredient_name name) ingredient_aliases = none →
        find_matching_ingredient simFn name = (none, 0) := by
    intro h hn
    unfold find_matching_ingredient
    rw [if_neg h, hn]
    exact fuzzyMatch_dead simFn hsim name h hn
  have hcases : (find_matching_ingredient simFn name).2 = 1 ∨
      (find_matching_ingredient simFn name).2 = mkRat 95 100 ∨
      (find_matching_ingredient simFn name).2 = 0 := by
    by_cases h1 : clean_ingredient_name name ∈ dbKeys
    · rw [e1 h1]
      exact Or.inl rfl
    · rcases hk : lookupStr (clean_ingredient_name name) ingredient_aliases with _ | k
      · rw [e3 h1 hk]
        exact Or.inr (Or.inr rfl)
      · rw [e2 h1 k hk]
        exact Or.inr (Or.inl rfl)
  refine ⟨e1, e2, e3, hcases, ?_, ?_⟩
  · rcases hcases with h | h | h <;> rw [h] <;> decide
  · rcases hcases with h | h | h <;> rw [h] <;> decide

theorem c4_witness :
    find_matching_ingredient simZero "tomato" = (some "tomato", 1) ∧
    find_matching_ingredient simZero "chicken" = (some "chicken_breast", mkRat 95 100) ∧
    find_matching_ingredient simZero "dragonfruit" = (none, 0) := by
  have hz : ∀ name e, e ∈ ingredientCorpus →
      (∀ t ∈ tokensOf (clean_ingredient_name name), t ∉ tokensOf e) →
      simZero (clean_ingredient_name name) e = 0 := fun _ _ _ _ => rfl
  refine ⟨?_, ?_, ?_⟩
  · exact (c4_matcher_ladder simZero hz "tomato").1 (by decide)
  · exact (c4_matcher_ladder simZero hz "chicken").2.1 (by decide) "chicken_breast" (by decide)
  · exact (c4_matcher_ladder simZero hz "dragonfruit").2.2.1 (by decide) (by decide)

theorem branch_mem_recognised {u : String}
    (h : u ∈ ["g", "gram", "grams"] ∨ u ∈ ["kg", "kilogram", "kilograms"] ∨
      u ∈ ["oz", "ounce", "ounces"] ∨ u ∈ ["lb", "pound", "pounds"] ∨
      u ∈ ["ml", "milliliter", "milliliters"] ∨ u ∈ ["l", "liter", "liters"] ∨
      u ∈ ["cup", "cups"] ∨ u ∈ ["tbsp", "tablespoon", "tablespoons"] ∨
      u ∈ ["tsp", "teaspoon", "teaspoons"] ∨
      u ∈ ["piece", "pieces", "whole", "item", "items"]) :
    u ∈ recognisedUnits := by
  simp only [recognisedUnits, List.mem_cons, List.not_mem_nil, or_false] at h ⊢
  tauto

/-- Claim C2: convert_to_grams implements a three-tier dispatch with
exact constants: weight units multiply by a fixed constant with no
ingredient lookup (g 1, kg 1000, oz 28.35, lb 453.592); volume units
multiply by the volume-to-milliliter constant (ml 1, l 1000, cup
236.588, tbsp 14.787, tsp 4.929) and the ingredient density, which
defaults to 1.0 when the ingredient is absent from the density table;
count units (piece, whole, item) multiply by the medium portion weight,
which defaults to 100 g; an unrecognised unit returns the amount
unchanged, and the function is total, so it never raises; in particular
converting 2 cups of flour with density 0.593 equals
2 times 236.588 times 0.593. -/
theorem c2_convert_to_grams_contract :
    (∀ (a : ℚ) (n : String),
      convert_to_grams a "g" n = a ∧
      convert_to_grams a "kg" n = a * 1000 ∧
      convert_to_grams a "oz" n = a * (2835 / 100) ∧
      convert_to_grams a "lb" n = a * (453592 / 1000) ∧
      convert_to_grams a "ml" n = a * densityOf n ∧
      convert_to_grams a "l" n = a * 1000 * densityOf n ∧
      convert_to_grams a "cup" n = a * (236588 / 1000) * densityOf n ∧
      convert_to_grams a "tbsp" n = a * (14787 / 1000) * densityOf n ∧
      convert_to_grams a "tsp" n = a * (4929 / 1000) * densityOf n ∧
      convert_to_grams a "piece" n = a * portionMediumOf n ∧
      convert_to_grams a "whole" n = a * portionMediumOf n ∧
      convert_to_grams a "item" n = a * portionMediumOf n) ∧
    (∀ n, lookupStr n densities = none → densityOf n = 1) ∧
    (∀ n, lookupStr n portion_sizes = none → portionMediumOf n = 100) ∧
    portionMediumOf "chicken_breast" = 100 ∧
    (∀ (a : ℚ) (u n : String), normalizeUnit u ∉ recognisedUnits → convert_to_grams a u n = a) ∧
    convert_to_grams 2 "cup" "flour" = 2 * (236588 / 1000) * (593 / 1000) := by
  refine ⟨?_, ?_, ?_, by decide, ?_, ?_⟩
  · intro a n
    refine ⟨rfl, ?_, ?_, ?_, ?_, ?_, ?_, ?_, ?_, ?_, ?_, ?_⟩
    · show qmul a 1000 = a * 1000
      rw [qmul_eq]
    · show qmul a (mkRat 2835 100) = a * (2835 / 100)
      rw [qmul_eq, Rat.mkRat_eq_div]
      norm_num
    · show qmul a (mkRat 453592 1000) = a * (453592 / 1000)
      rw [qmul_eq, Rat.mkRat_eq_div]
      norm_num
    · show qmul a (densityOf n) = a * densityOf n
      rw [qmul_eq]
    · show qmul (qmul a 1000) (densityOf n) = a * 1000 * densityOf n
      rw [qmul_eq, qmul_eq]
    · show qmul (qmul a (mkRat 236588 1000)) (densityOf n) = a * (236588 / 1000) * densityOf n
      rw [qmul_eq, qmul_eq, Rat.mkRat_eq_div]
      norm_num
    · show qmul (qmul a (mkRat 14787 1000)) (densityOf n) = a * (14787 / 1000) * densityOf n
      rw [qmul_eq, qmul_eq, Rat.mkRat_eq_div]
      norm_num
    · show qmul (qmul a (mkRat 4929 1000)) (densityOf n) = a * (4929 / 1000) * densityOf n
      rw [qmul_eq, qmul_eq, Rat.mkRat_eq_div]
      norm_num
    · show qmul a (portionMediumOf n) = a * portionMediumOf n
      rw [qmul_eq]
    · show qmul a (portionMediumOf n) = a * portionMediumOf n
      rw [qmul_eq]
    · show qmul a (portionMediumOf n) = a * portionMediumOf n
      rw [qmul_eq]
  · intro n h
    unfold densityOf
    rw [h]
    rfl
  · intro n h
    unfold portionMediumOf
    rw [h]
    rfl
  · intro a u n hmem
    unfold convert_to_grams
    dsimp only
    split_ifs with h1 h2 h3 h4 h5 h6 h7 h8 h9 h10
    · exact absurd (branch_mem_recognised (Or.inl h1)) hmem
    · exact absurd (branch_mem_recognised (Or.inr (Or.inl h2))) hmem
    · exact absurd (branch_mem_recognised (Or.inr (Or.inr (Or.inl h3)))) hmem
    · exact absurd (branch_mem_recognised (Or.inr (Or.inr (Or.inr (Or.inl h4))))) hmem
    · exact absurd (branch_mem_recognised (Or.inr (Or.inr (Or.inr (Or.inr (Or.inl h5)))))) hmem
    · exact absurd
        (branch_mem_recognised (Or.inr (Or.inr (Or.inr (Or.inr (Or.inr (Or.inl h6))))))) hmem
    · exact absurd
        (branch_mem_recognised
          (Or.inr (Or.inr (Or.inr (Or.inr (Or.inr (Or.inr (Or.inl h7)))))))) hmem
    · exact absurd
        (branch_mem_recognised
          (Or.inr (Or.inr (Or.inr (Or.inr (Or.inr (Or.inr (Or.inr (Or.inl h8))))))))) hmem
    · exact absurd
        (branch_mem_recognised
          (Or.inr (Or.inr (Or.inr (Or.inr (Or.inr (Or.inr (Or.inr (Or.inr (Or.inl h9)))))))))) hmem
    · exact absurd
        (branch_mem_recognised
          (Or.inr (Or.inr (Or.inr (Or.inr (Or.inr (Or.inr (Or.inr (Or.inr (Or.inr h10)))))))))) hmem
    · rfl
  · show qmul (qmul 2 (mkRat 236588 1000)) (densityOf "flour") = 2 * (236588 / 1000) * (593 / 1000)
    have hd : densityOf "flour" = mkRat 593 1000 := by decide
    rw [hd, qmul_eq, qmul_eq, Rat.mkRat_eq_div, Rat.mkRat_eq_div]
    norm_num

theorem c2_witness :
    convert_to_grams 2 "g" "flour" = 2 ∧
    densityOf "unobtainium" = 1 ∧
    portionMediumOf "unobtainium" = 100 ∧
    convert_to_grams 5 "pinch" "salt" = 5 :=
  ⟨(c2_convert_to_grams_contract.1 2 "flour").1,
   c2_convert_to_grams_contract.2.1 "unobtainium" (by decide),
   c2_convert_to_grams_contract.2.2.1 "unobtainium" (by decide),
   c2_convert_to_grams_contract.2.2.2.2.1 5 "pinch" "salt" (by decide)⟩

/-- Claim C3 (code bug): the aggregation is supposed to yield, for one
ingredient tomato of 200 g at one serving, calories of 18 times 200/100,
that is 36.0; the code instead always reports 0 calories, because the
accumulator key calories never matches the database column
calories_per_100g in the guard `if nutrient in nutrition_data`, even
though the database row carries the value 18 and the other nutrient
fields are scaled as specified (protein 0.88 times 2 equals 1.76). -/
theorem c3_calories_never_accumulated :
    (calculate_nutrition simZero [⟨"tomato", some 200, some "g"⟩] 1).nutrition.calories = 0 ∧
    (calculate_nutrition simZero [⟨"tomato", some 200, some "g"⟩] 1).nutrition.calories ≠ 36 ∧
    (lookupStr "tomato" nutrition_db).map NutrRow.calories_per_100g = some 18 ∧
    (calculate_nutrition simZero [⟨"tomato", some 200, some "g"⟩] 1).nutrition.protein =
      mkRat 176 100 := by decide

/-- Claim C7 counterexample: clean_ingredient_name removes the listed
word raw inside the legitimate ingredient word strawberry, so the
normalized key is stberry, not the intact strawberry that a whole-word
removal would leave. -/
theorem c7_counterexample :
    clean_ingredient_name "strawberry" = "stberry" ∧
    ("stberry" : String) ≠ "strawberry" := by decide

/-- Claim C7 as amended: clean_ingredient_name removes each listed
descriptive word as a plain substring removal (str.replace), not as a
whole-word removal: a listed word is removed even inside a longer
legitimate word (strawberry loses its embedded raw and becomes stberry),
while stand-alone occurrences are removed as expected (raw carrot
becomes carrot, fresh tomato becomes tomato). -/
theorem c7_substring_removal_amended :
    clean_ingredient_name "strawberry" = "stberry" ∧
    clean_ingredient_name "raw carrot" = "carrot" ∧
    clean_ingredient_name "fresh tomato" = "tomato" := by decide

/-- Claim C6 counterexample: the boundary expression
`request.servings or 1` neither rejects nor clamps a negative servings
value: a request with servings of minus two invokes the core with minus
two, a value below one. The endpoint itself then returns the all-zero
fallback for an unrelated reason — its pydantic ingredient objects lack
the dict access the core loop performs, so the exception handler fires
before any division — but the boundary hands the core the unclamped
value all the same, and on the dict-shaped inputs the core documents,
servings minus two divides into the totals and yields a negative protein
value. -/
theorem c6_counterexample :
    servingsOrDefault (some (-2)) = -2 ∧
    ((-2 : ℤ) < 1) ∧
    analyze_nutrition ⟨[⟨"tomato", some 200, some "g"⟩], some (-2)⟩ =
      calculate_nutrition_on_models [⟨"tomato", some 200, some "g"⟩] (-2) ∧
    analyze_nutrition ⟨[⟨"tomato", some 200, some "g"⟩], some (-2)⟩ = fallback_result ∧
    (calculate_nutrition simZero [⟨"tomato", some 200, some "g"⟩] (-2)).nutrition.protein =
      mkRat (-22) 25 := by decide

/-- Claim C6 as amended: the analyze_nutrition boundary replaces only
the falsy servings values, a missing field or zero, with one, so
servings zero never reaches calculate_nutrition; any nonzero servings,
including negative ones, is handed to the core unchanged, neither
rejected nor clamped (on the endpoint path the core then returns the
zero fallback for an unrelated reason: the pydantic ingredient objects
lack the dict access its loop performs, so the handler fires before any
division). -/
theorem c6_boundary_amended :
    servingsOrDefault none = 1 ∧
    servingsOrDefault (some 0) = 1 ∧
    (∀ n : ℤ, n ≠ 0 → servingsOrDefault (some n) = n) ∧
    (∀ request : RecipeAnalysisRequest,
      analyze_nutrition request =
        calculate_nutrition_on_models request.ingredients
          (servingsOrDefault request.servings)) := by
  refine ⟨rfl, rfl, ?_, fun _ => rfl⟩
  intro n hn
  simp [servingsOrDefault, hn]

theorem c6_witness : servingsOrDefault (some 5) = 5 :=
  c6_boundary_amended.2.2.1 5 (by decide)

/-- Claim C5 counterexample: a negative amount passes the schema (the
optional amount field of IngredientInput carries no lower bound), and a
tomato of minus 100 g at one serving yields a negative protein value. -/
theorem c5_counterexample :
    (calculate_nutrition simZero [⟨"tomato", some (-100), some "g"⟩] 1).nutrition.protein =
      mkRat (-22) 25 ∧
    (calculate_nutrition simZero
        [⟨"tomato", some (-100), some "g"⟩] 1).nutrition.protein < 0 := by decide

theorem qmul_nonneg {x y : ℚ} (hx : 0 ≤ x) (hy : 0 ≤ y) : 0 ≤ qmul x y := by
  rw [qmul_eq]
  exact mul_nonneg hx hy

theorem qadd_nonneg {x y : ℚ} (hx : 0 ≤ x) (hy : 0 ≤ y) : 0 ≤ qadd x y := by
  rw [qadd_eq]
  exact add_nonneg hx hy

theorem qdiv_nonneg {x y : ℚ} (hx : 0 ≤ x) (hy : 0 ≤ y) : 0 ≤ qdiv x y := by
  rw [qdiv_eq]
  exact div_nonneg hx hy

theorem densityOf_pos (n : String) : 0 < densityOf n := by
  unfold densityOf
  rcases h : lookupStr n densities with _ | v
  · decide
  · have hall : ∀ p ∈ densities, 0 < p.2 := by decide
    exact hall _ (lookupStr_mem h)

theorem portionMediumOf_pos (n : String) : 0 < portionMediumOf n := by
  unfold portionMediumOf
  rcases h : lookupStr n portion_sizes with _ | sizes
  · decide
  · show 0 < (lookupStr "medium" sizes).getD default_portion
    rcases h2 : lookupStr "medium" sizes with _ | v
    · decide
    · have hall : ∀ p ∈ portion_sizes, ∀ q ∈ p.2, 0 < q.2 := by decide
      exact hall _ (lookupStr_mem h) _ (lookupStr_mem h2)

theorem convert_nonneg (a : ℚ) (u n : String) (ha : 0 ≤ a) :
    0 ≤ convert_to_grams a u n := by
  have hd := (densityOf_pos n).le
  have hp := (portionMediumOf_pos n).le
  unfold convert_to_grams
  dsimp only
  split_ifs
  · exact ha
  · exact qmul_nonneg ha (by decide)
  · exact qmul_nonneg ha (by decide)
  · exact qmul_nonneg ha (by decide)
  · exact qmul_nonneg ha hd
  · exact qmul_nonneg (qmul_nonneg ha (by decide)) hd
  · exact qmul_nonneg (qmul_nonneg ha (by decide)) hd
  · exact qmul_nonneg (qmul_nonneg ha (by decide)) hd
  · exact qmul_nonneg (qmul_nonneg ha (by decide)) hd
  · exact qmul_nonneg ha hp
  · exact ha

theorem nutrition_db_rows_nonneg :
    ∀ p ∈ nutrition_db, 0 ≤ p.2.calories_per_100g ∧ 0 ≤ p.2.protein ∧ 0 ≤ p.2.carbs ∧
      0 ≤ p.2.fat ∧ 0 ≤ p.2.fiber ∧ 0 ≤ p.2.sugar ∧ 0 ≤ p.2.sodium ∧ 0 ≤ p.2.vitamin_c ∧
      0 ≤ p.2.calcium ∧ 0 ≤ p.2.iron ∧ 0 ≤ p.2.potassium := by decide

theorem addScaled_nonneg {t : Totals} {row : NutrRow} {scale : ℚ}
    (ht : TotalsNonneg t)
    (hrow : 0 ≤ row.calories_per_100g ∧ 0 ≤ row.protein ∧ 0 ≤ row.carbs ∧ 0 ≤ row.fat ∧
      0 ≤ row.fiber ∧ 0 ≤ row.sugar ∧ 0 ≤ row.sodium ∧ 0 ≤ row.vitamin_c ∧
      0 ≤ row.calcium ∧ 0 ≤ row.iron ∧ 0 ≤ row.potassium)
    (hs : 0 ≤ scale) : TotalsNonneg (addScaled t row scale) := by
  obtain ⟨ht1, ht2, ht3, ht4, ht5, ht6, ht7, ht8, ht9, ht10, ht11⟩ := ht
  obtain ⟨-, hr2, hr3, hr4, hr5, hr6, hr7, hr8, hr9, hr10, hr11⟩ := hrow
  exact ⟨ht1, qadd_nonneg ht2 (qmul_nonneg hr2 hs), qadd_nonneg ht3 (qmul_nonneg hr3 hs),
    qadd_nonneg ht4 (qmul_nonneg hr4 hs), qadd_nonneg ht5 (qmul_nonneg hr5 hs),
    qadd_nonneg ht6 (qmul_nonneg hr6 hs), qadd_nonneg ht7 (qmul_nonneg hr7 hs),
    qadd_nonneg ht8 (qmul_nonneg hr8 hs), qadd_nonneg ht9 (qmul_nonneg hr9 hs),
    qadd_nonneg ht10 (qmul_nonneg hr10 hs), qadd_nonneg ht11 (qmul_nonneg hr11 hs)⟩

theorem processIngredient_totals_nonneg (simFn : String → String → ℚ)
    (st : AggState) (ing : IngredientInput)
    (hst : TotalsNonneg st.totals) (ha : 0 ≤ ing.amount.getD 100) :
    TotalsNonneg (processIngredient simFn st ing).totals := by
  unfold processIngredient
  dsimp only
  rcases hF : find_matching_ingredient simFn (pyStripStr (lowerStr ing.name)) with ⟨om, c⟩
  cases om with
  | none => exact hst
  | some m =>
    dsimp only
    have hm : m ∈ dbKeys := find_matching_ingredient_mem_db simFn _ m c hF
    obtain ⟨row, hrow⟩ := mem_dbKeys_lookup hm
    rw [hrow]
    have hr := nutrition_db_rows_nonneg _ (lookupStr_mem hrow)
    exact addScaled_nonneg hst hr (qdiv_nonneg (convert_nonneg _ _ _ ha) (by decide))

theorem foldl_totals_nonneg (simFn : String → String → ℚ) :
    ∀ (ingredients : List IngredientInput) (st : AggState),
      TotalsNonneg st.totals → (∀ ing ∈ ingredients, 0 ≤ ing.amount.getD 100) →
      TotalsNonneg ((ingredients.foldl (processIngredient simFn) st).totals) := by
  intro ingredients
  induction ingredients with
  | nil => intro st h _; exact h
  | cons ing rest ih =>
    intro st h hall
    rw [List.foldl_cons]
    exact ih _ (processIngredient_totals_nonneg _ _ _ h (hall ing (List.mem_cons_self _ _)))
      (fun i hi => hall i (List.mem_cons_of_mem _ hi))

theorem qfloor_nonneg {x : ℚ} (hx : 0 ≤ x) : 0 ≤ qfloor x := by
  unfold qfloor
  apply Int.fdiv_nonneg
  · exact Rat.num_nonneg.mpr hx
  · exact_mod_cast Nat.zero_le _

theorem roundHalfToEven_nonneg {x : ℚ} (hx : 0 ≤ x) : 0 ≤ roundHalfToEven x := by
  unfold roundHalfToEven
  dsimp only
  have hf := qfloor_nonneg hx
  split_ifs <;> omega

theorem round2_nonneg {x : ℚ} (hx : 0 ≤ x) : 0 ≤ round2 x := by
  unfold round2
  apply qdiv_nonneg
  · exact_mod_cast roundHalfToEven_nonneg (qmul_nonneg hx (by decide))
  · decide

/-- Claim C5 as amended: provided every present ingredient amount is
non-negative and servings is at least one, every nutrient value of the
NutritionResult returned by calculate_nutrition is non-negative (the
unrestricted claim fails: the schema admits negative amounts and the
boundary passes negative servings through, both of which produce
negative nutrient values). -/
theorem c5_nonnegative_amended (simFn : String → String → ℚ)
    (ingredients : List IngredientInput) (servings : ℤ)
    (hamounts : ∀ ing ∈ ingredients, 0 ≤ ing.amount.getD 100)
    (hserv : 1 ≤ servings) :
    0 ≤ (calculate_nutrition simFn ingredients servings).nutrition.calories ∧
    0 ≤ (calculate_nutrition simFn ingredients servings).nutrition.protein ∧
    0 ≤ (calculate_nutrition simFn ingredients servings).nutrition.carbs ∧
    0 ≤ (calculate_nutrition simFn ingredients servings).nutrition.fat ∧
    0 ≤ (calculate_nutrition simFn ingredients servings).nutrition.fiber ∧
    0 ≤ (calculate_nutrition simFn ingredients servings).nutrition.sugar ∧
    0 ≤ (calculate_nutrition simFn ingredients servings).nutrition.sodium := by
  have ht : TotalsNonneg ((aggregate simFn ingredients).totals) :=
    foldl_totals_nonneg simFn ingredients initAggState
      (by unfold TotalsNonneg; decide) hamounts
  obtain ⟨h1, h2, h3, h4, h5, h6, h7, -, -, -, -⟩ := ht
  have hsq : (0 : ℚ) ≤ ((servings : ℤ) : ℚ) := by
    have : (0 : ℤ) ≤ servings := by omega
    exact_mod_cast this
  unfold calculate_nutrition build_nutrition_result
  rw [if_neg (by omega : ¬ servings = 0)]
  dsimp only
  exact ⟨round2_nonneg (qdiv_nonneg h1 hsq), round2_nonneg (qdiv_nonneg h2 hsq),
    round2_nonneg (qdiv_nonneg h3 hsq), round2_nonneg (qdiv_nonneg h4 hsq),
    round2_nonneg (qdiv_nonneg h5 hsq), round2_nonneg (qdiv_nonneg h6 hsq),
    round2_nonneg (qdiv_nonneg h7 hsq)⟩

theorem c5_witness :
    0 ≤ (calculate_nutrition simZero [⟨"tomato", some 200, some "g"⟩] 2).nutrition.calories ∧
    0 ≤ (calculate_nutrition simZero [⟨"tomato", some 200, some "g"⟩] 2).nutrition.protein ∧
    0 ≤ (calculate_nutrition simZero [⟨"tomato", some 200, some "g"⟩] 2).nutrition.carbs ∧
    0 ≤ (calculate_nutrition simZero [⟨"tomato", some 200, some "g"⟩] 2).nutrition.fat ∧
    0 ≤ (calculate_nutrition simZero [⟨"tomato", some 200, some "g"⟩] 2).nutrition.fiber ∧
    0 ≤ (calculate_nutrition simZero [⟨"tomato", some 200, some "g"⟩] 2).nutrition.sugar ∧
    0 ≤ (calculate_nutrition simZero [⟨"tomato", some 200, some "g"⟩] 2).nutrition.sodium :=
  c5_nonnegative_amended simZero [⟨"tomato", some 200, some "g"⟩] 2 (by decide) (by decide)

/-- Claim C10: the nutrition mapping of every calculate_nutrition result
has exactly the seven nutrient fields and the per_serving flag (the type
NutritionOut of the embedding); the per_serving flag is always true; the
vitamin_c, calcium, iron and potassium totals are accumulated during
aggregation (13.7 for 100 g of tomato) yet never included: the result
construction is invariant under arbitrary changes of those four
totals. -/
theorem c10_result_fields :
    (∀ (simFn : String → String → ℚ) (ingredients : List IngredientInput) (servings : ℤ),
      (calculate_nutrition simFn ingredients servings).nutrition.per_serving = true) ∧
    (aggregate simZero [⟨"tomato", some 100, some "g"⟩]).totals.vitamin_c = mkRat 137 10 ∧
    (∀ (st st' : AggState) (servings : ℤ),
      st.totals.calories = st'.totals.calories →
      st.totals.protein = st'.totals.protein →
      st.totals.carbs = st'.totals.carbs →
      st.totals.fat = st'.totals.fat →
      st.totals.fiber = st'.totals.fiber →
      st.totals.sugar = st'.totals.sugar →
      st.totals.sodium = st'.totals.sodium →
      st.totalConfidence = st'.totalConfidence →
      st.processedCount = st'.processedCount →
      st.missing = st'.missing →
      build_nutrition_result st servings = build_nutrition_result st' servings) := by
  refine ⟨?_, by decide, ?_⟩
  · intro simFn ingredients servings
    unfold calculate_nutrition build_nutrition_result
    split_ifs <;> rfl
  · intro st st' servings e1 e2 e3 e4 e5 e6 e7 e8 e9 e10
    unfold build_nutrition_result
    rw [e1, e2, e3, e4, e5, e6, e7, e8, e9, e10]

theorem c10_witness :
    build_nutrition_result ⟨⟨0, 0, 0, 0, 0, 0, 0, 5, 6, 7, 8⟩, 0, 0, []⟩ 1 =
      build_nutrition_result ⟨⟨0, 0, 0, 0, 0, 0, 0, 9, 10, 11, 12⟩, 0, 0, []⟩ 1 :=
  c10_result_fields.2.2 _ _ 1 rfl rfl rfl rfl rfl rfl rfl rfl rfl rfl

theorem boost_getD (query : String) :
    ∀ (recipes : List Recipe) (base_scores : List ℚ) (i : ℕ),
      i < recipes.length → i < base_scores.length →
      (boost_keyword_matches query recipes base_scores).getD i 0 =
        min 1 (qadd (base_scores.getD i 0)
          (qmul
            ((keywordOverlapCount query (recipes.getD i emptyRecipe).text_representation : ℕ) : ℚ)
            (mkRat 1 10))) := by
  intro recipes
  induction recipes with
  | nil =>
    intro base_scores i h1 h2
    simp at h1
  | cons r rs ih =>
    intro base_scores i h1 h2
    cases base_scores with
    | nil => simp at h2
    | cons b bs =>
      cases i with
      | zero => rfl
      | succ j =>
        have hcons :
            boost_keyword_matches query (r :: rs) (b :: bs) =
              min 1 (qadd b
                (qmul ((keywordOverlapCount query r.text_representation : ℕ) : ℚ)
                  (mkRat 1 10))) :: boost_keyword_matches query rs bs := rfl
        rw [hcons, List.getD_cons_succ, List.getD_cons_succ, List.getD_cons_succ]
        exact ih bs j (by simpa using h1) (by simpa using h2)

/-- Claim C8: for every query and retained recipe position, the boosted
score equals the base cosine-similarity score plus 0.1 per distinct
lowercase query word occurring literally (as a substring) in the
lowercased flattened recipe text, clamped so it never exceeds 1.0. -/
theorem c8_keyword_boost (query : String) (recipes : List Recipe) (base_scores : List ℚ)
    (i : ℕ) (h1 : i < recipes.length) (h2 : i < base_scores.length) :
    (boost_keyword_matches query recipes base_scores).getD i 0 =
      min 1 (base_scores.getD i 0 +
        (keywordOverlapCount query (recipes.getD i emptyRecipe).text_representation : ℚ) *
          (1 / 10)) ∧
    (boost_keyword_matches query recipes base_scores).getD i 0 ≤ 1 := by
  have h := boost_getD query recipes base_scores i h1 h2
  have hm : (mkRat 1 10 : ℚ) = 1 / 10 := by
    rw [Rat.mkRat_eq_div]
    norm_num
  constructor
  · rw [h, qadd_eq, qmul_eq, hm]
  · rw [h]
    exact min_le_left _ _

theorem c8_witness :
    (boost_keyword_matches "pasta dinner" [recipeA] [mkRat 1 2]).getD 0 0 =
      min 1 (([mkRat 1 2] : List ℚ).getD 0 0 +
        (keywordOverlapCount "pasta dinner"
            (([recipeA] : List Recipe).getD 0 emptyRecipe).text_representation : ℚ) *
          (1 / 10)) ∧
    (boost_keyword_matches "pasta dinner" [recipeA] [mkRat 1 2]).getD 0 0 ≤ 1 :=
  c8_keyword_boost "pasta dinner" [recipeA] [mkRat 1 2] 0 (by decide) (by decide)

theorem mem_filter_by_subset :
    ∀ (restrictions : List String) (recipes : List Recipe) (r : Recipe),
      r ∈ filter_by_dietary_restrictions recipes restrictions → r ∈ recipes := by
  intro restrictions
  induction restrictions with
  | nil => intro recipes r h; exact h
  | cons r0 rs ih =>
    intro recipes r h
    rw [filter_by_dietary_restrictions, List.foldl_cons] at h
    have h2 := ih (applyRestriction recipes r0) r h
    exact List.mem_of_mem_filter h2

theorem mem_filter_by_survives :
    ∀ (restrictions : List String) (recipes : List Recipe) (r : Recipe) (rest : String),
      rest ∈ restrictions → r ∈ filter_by_dietary_restrictions recipes restrictions →
      containsAnyKeyword r.text_representation (excludeKeywordsFor (lowerStr rest)) = false := by
  intro restrictions
  induction restrictions with
  | nil =>
    intro recipes r rest hmem _
    simp at hmem
  | cons r0 rs ih =>
    intro recipes r rest hmem h
    rw [filter_by_dietary_restrictions, List.foldl_cons] at h
    rcases List.mem_cons.mp hmem with heq | hmem2
    · subst heq
      have hr : r ∈ applyRestriction recipes rest := mem_filter_by_subset rs _ r h
      have hkeep := List.of_mem_filter hr
      simpa using hkeep
    · exact ih _ r rest hmem2 h

/-- Claim C1: no recipe whose lowercased flattened text contains a
keyword excluded by an active dietary restriction ever appears in the
output of find_recipes, at any rank: the dietary filter is applied to
the corpus before any similarity scoring or ranking, so every returned
entry descends from the filtered corpus. -/
theorem c1_dietary_filter_before_ranking
    (baseScore : Recipe → ℚ) (recipes : List Recipe) (query : String)
    (dietary_restrictions : List String) (max_results : ℕ) (r : Recipe) (s : ℚ)
    (hmem : (r, s) ∈ find_recipes baseScore recipes query dietary_restrictions max_results)
    (rest : String) (hrest : rest ∈ dietary_restrictions)
    (kw : String) (hkw : kw ∈ excludeKeywordsFor (lowerStr rest)) :
    strContains (lowerStr r.text_representation) kw = false := by
  have h1 : (r, s) ∈ rankEntries (scoredEntries baseScore recipes query dietary_restrictions) :=
    List.mem_of_mem_take hmem
  have h2 : (r, s) ∈ scoredEntries baseScore recipes query dietary_restrictions := by
    have hperm := List.perm_insertionSort (fun a b : Recipe × ℚ => b.2 ≤ a.2)
      (scoredEntries baseScore recipes query dietary_restrictions)
    exact hperm.mem_iff.mp h1
  have h3 : r ∈ filter_by_dietary_restrictions recipes dietary_restrictions := by
    unfold scoredEntries at h2
    exact (List.of_mem_zip h2).1
  have h4 := mem_filter_by_survives dietary_restrictions recipes r rest hrest h3
  unfold containsAnyKeyword at h4
  rw [List.any_eq_false] at h4
  have h5 := h4 kw hkw
  simpa using h5

theorem c1_witness :
    ((recipeA, mkRat 6 10) ∈
      find_recipes (fun _ => mkRat 1 2) [recipeA, recipeB] "salad" ["vegetarian"] 5) ∧
    strContains (lowerStr recipeA.text_representation) "chicken" = false :=
  ⟨by decide,
   c1_dietary_filter_before_ranking (fun _ => mkRat 1 2) [recipeA, recipeB] "salad"
     ["vegetarian"] 5 recipeA (mkRat 6 10) (by decide) "vegetarian" (by decide)
     "chicken" (by decide)⟩

theorem scoreSlice_orderedInsert_eq (s : ℚ) (a : Recipe × ℚ) (ha : a.2 = s) :
    ∀ t : List (Recipe × ℚ),
      scoreSlice s (List.orderedInsert (fun x y => y.2 ≤ x.2) a t) = a :: scoreSlice s t := by
  intro t
  induction t with
  | nil => simp [scoreSlice, List.orderedInsert, ha]
  | cons b bt ih =>
    rw [List.orderedInsert]
    by_cases hr : b.2 ≤ a.2
    · rw [if_pos hr]
      simp only [scoreSlice, List.filter_cons, decide_eq_true_eq, if_pos ha]
    · rw [if_neg hr]
      have hb : b.2 ≠ s := by
        intro hbs
        apply hr
        rw [hbs, ha]
      simp only [scoreSlice, List.filter_cons, decide_eq_true_eq, if_neg hb]
      exact ih

theorem scoreSlice_orderedInsert_ne (s : ℚ) (a : Recipe × ℚ) (ha : ¬ a.2 = s) :
    ∀ t : List (Recipe × ℚ),
      scoreSlice s (List.orderedInsert (fun x y => y.2 ≤ x.2) a t) = scoreSlice s t := by
  intro t
  induction t with
  | nil => simp [scoreSlice, List.orderedInsert, ha]
  | cons b bt ih =>
    rw [List.orderedInsert]
    by_cases hr : b.2 ≤ a.2
    · rw [if_pos hr]
      simp only [scoreSlice, List.filter_cons, decide_eq_true_eq, if_neg ha]
    · rw [if_neg hr]
      by_cases hb : b.2 = s
      · simp only [scoreSlice, List.filter_cons, decide_eq_true_eq, if_pos hb]
        exact congrArg (List.cons b) ih
      · simp only [scoreSlice, List.filter_cons, decide_eq_true_eq, if_neg hb]
        exact ih

theorem scoreSlice_rankEntries (s : ℚ) :
    ∀ l : List (Recipe × ℚ), scoreSlice s (rankEntries l) = scoreSlice s l := by
  intro l
  induction l with
  | nil => rfl
  | cons a t ih =>
    rw [rankEntries, List.insertionSort]
    by_cases ha : a.2 = s
    · rw [scoreSlice_orderedInsert_eq s a ha]
      rw [show scoreSlice s (List.insertionSort (fun x y => y.2 ≤ x.2) t) =
        scoreSlice s t from ih]
      simp only [scoreSlice, List.filter_cons, decide_eq_true_eq, if_pos ha]
    · rw [scoreSlice_orderedInsert_ne s a ha]
      rw [show scoreSlice s (List.insertionSort (fun x y => y.2 ≤ x.2) t) =
        scoreSlice s t from ih]
      simp only [scoreSlice, List.filter_cons, decide_eq_true_eq, if_neg ha]

/-- Claim C9: find_recipes is deterministic — for a fixed corpus, fixed
base-score function and identical query, restriction list and result
limit, two calls return the same list (the embedding consults no random
source, being a pure function) — and ties in boosted score are broken by
corpus insertion order: for every score value, the output entries
carrying that score form a sublist, in order, of the corpus-ordered
scored entries. -/
theorem c9_determinism_and_tie_order (baseScore : Recipe → ℚ) (recipes : List Recipe)
    (query : String) (dietary_restrictions : List String) (max_results : ℕ) :
    find_recipes baseScore recipes query dietary_restrictions max_results =
      find_recipes baseScore recipes query dietary_restrictions max_results ∧
    ∀ s : ℚ,
      List.Sublist
        (scoreSlice s (find_recipes baseScore recipes query dietary_restrictions max_results))
        (scoreSlice s (scoredEntries baseScore recipes query dietary_restrictions)) := by
  refine ⟨rfl, ?_⟩
  intro s
  have h1 : List.Sublist
      (scoreSlice s (find_recipes baseScore recipes query dietary_restrictions max_results))
      (scoreSlice s
        (rankEntries (scoredEntries baseScore recipes query dietary_restrictions))) := by
    unfold find_recipes scoreSlice
    exact List.Sublist.filter _ (List.take_sublist _ _)
  rw [scoreSlice_rankEntries] at h1
  exact h1
